import Mathlib

/-!
Verification of a small software raytracer (single C++ source file).

The embedding models the floating-point arithmetic of the program over ℚ
(exact rationals).  The two transcendental library calls the program makes,
`sqrt` (in `Sphere::intersect`, `glm::normalize`, `glm::length`) and `tan`
(computed once in `main` and passed around as the scalar `angle`), are kept
abstract: every definition that needs a square root takes a function
`sqrt : ℚ → ℚ` as an explicit parameter, and the camera code takes the
precomputed `angle` scalar exactly as the C++ functions do.  All definitions
are computable and all predicates decidable, so concrete runs evaluate by
`decide` / `rfl`.
-/

/-- Three-component vector over ℚ, modelling `glm::vec3`. -/
structure Vec3 where
  x : ℚ
  y : ℚ
  z : ℚ
  deriving DecidableEq, Repr

namespace Vec3

instance : Add Vec3 := ⟨fun a b => ⟨a.x + b.x, a.y + b.y, a.z + b.z⟩⟩
instance : Sub Vec3 := ⟨fun a b => ⟨a.x - b.x, a.y - b.y, a.z - b.z⟩⟩
instance : SMul ℚ Vec3 := ⟨fun c v => ⟨c * v.x, c * v.y, c * v.z⟩⟩

/-- Model of `glm::dot`. -/
def dot (a b : Vec3) : ℚ := a.x * b.x + a.y * b.y + a.z * b.z

/-- Model of `glm::length v = sqrt (dot v v)`, with the square root abstract. -/
def length (sqrt : ℚ → ℚ) (v : Vec3) : ℚ := sqrt (dot v v)

/-- Model of `glm::normalize v = v * inversesqrt (dot v v)`, square root abstract. -/
def normalize (sqrt : ℚ → ℚ) (v : Vec3) : Vec3 := (1 / sqrt (dot v v)) • v

/-- Model of `glm::reflect I N = I - 2 * dot N I * N`. -/
def reflect (I N : Vec3) : Vec3 := I - (2 * dot N I) • N

/-- Scalar `glm::clamp x lo hi = min (max x lo) hi`. -/
def qclamp (v lo hi : ℚ) : ℚ := min (max v lo) hi

/-- Componentwise `glm::clamp` on vectors. -/
def clamp (v lo hi : Vec3) : Vec3 :=
  ⟨qclamp v.x lo.x hi.x, qclamp v.y lo.y hi.y, qclamp v.z lo.z hi.z⟩

theorem smul_def (c : ℚ) (v : Vec3) : c • v = ⟨c * v.x, c * v.y, c * v.z⟩ := rfl

theorem sub_def (a b : Vec3) : a - b = ⟨a.x - b.x, a.y - b.y, a.z - b.z⟩ := rfl

theorem add_def (a b : Vec3) : a + b = ⟨a.x + b.x, a.y + b.y, a.z + b.z⟩ := rfl

end Vec3

/-- The `Ray` class: an origin and a direction. -/
structure Ray where
  origin : Vec3
  direction : Vec3
  deriving DecidableEq, Repr

/-- The `Sphere` class: radius, position, colour, diffuse and specular
coefficients. -/
structure Sphere where
  radius : ℚ
  position : Vec3
  colour : Vec3
  diffuse : ℚ
  specular : ℚ
  deriving DecidableEq, Repr

/-- Epsilon guard of `Sphere::intersect` (`1e-4f` in the source). -/
def intersectEps : ℚ := 1 / 10000

/-- Function `Sphere::intersect`, translated line by line from the source:
`op = m_position - ray.origin()`, `b = dot(op, ray.direction())`,
`det = b*b - dot(op, op) + m_radius*m_radius`; if `det < 0` return `0`,
else `det = sqrt(det)`; return `b - det` if `> eps`, else `b + det` if
`> eps`, else `0`.  The float `sqrt` is the abstract parameter. -/
def Sphere.intersect (sqrt : ℚ → ℚ) (s : Sphere) (ray : Ray) : ℚ :=
  let op : Vec3 := s.position - ray.origin
  let b : ℚ := Vec3.dot op ray.direction
  let det : ℚ := b * b - Vec3.dot op op + s.radius * s.radius
  if det < 0 then 0
  else
    let det' := sqrt det
    if b - det' > intersectEps then b - det'
    else if b + det' > intersectEps then b + det'
    else 0

/-- Written from the spec's words for claim C1: `op = sphere.position -
ray.origin`, `b = dot(op, ray.direction)`, `det = b² - dot(op,op) +
radius²`; if `det < 0` return 0 (no-hit sentinel); otherwise with
`det` replaced by `sqrt det`, return the near root `t = b - det` when
`t > 1e-4`, else the far root `t = b + det` when that exceeds `1e-4`,
else 0. -/
def intersectSpecC1 (sqrt : ℚ → ℚ) (s : Sphere) (ray : Ray) : ℚ :=
  let op : Vec3 := s.position - ray.origin
  let b : ℚ := Vec3.dot op ray.direction
  let det : ℚ := b ^ 2 - Vec3.dot op op + s.radius ^ 2
  if det < 0 then 0
  else
    let sq := sqrt det
    let tNear := b - sq
    let tFar := b + sq
    if tNear > 1 / 10000 then tNear
    else if tFar > 1 / 10000 then tFar
    else 0

/-- C1: for every sphere and every ray (and every interpretation of the
float square root), `Sphere::intersect` computes exactly the quadratic
solution described by the spec: `op`, `b`, `det = b² - dot(op,op) + r²`,
returning 0 when `det < 0`, else the near root `b - sqrt det` when it
exceeds `1e-4`, else the far root `b + sqrt det` under the same test,
else the no-hit sentinel 0. -/
theorem intersect_matches_spec (sqrt : ℚ → ℚ) (s : Sphere) (ray : Ray) :
    s.intersect sqrt ray = intersectSpecC1 sqrt s ray := by
  unfold Sphere.intersect intersectSpecC1 intersectEps
  simp only [sq, pow_two]

/-- C8: a sphere of radius `r`, centre on the ray's line of sight at
distance `d` from the origin (`d > r`, `d - r` above the `1e-4` epsilon),
yields the near root `d - r`, for any interpretation of the float square
root that is correct on the perfect square `r*r`. -/
theorem intersect_near_root_on_axis (sqrt : ℚ → ℚ) (o dir col : Vec3)
    (d r kd ks : ℚ)
    (hdir : Vec3.dot dir dir = 1) (hsqrt : sqrt (r * r) = r)
    (hdr : r < d) (heps : intersectEps < d - r) :
    Sphere.intersect sqrt ⟨r, o + d • dir, col, kd, ks⟩ ⟨o, dir⟩ = d - r := by
  have hop : (o + d • dir) - o = d • dir := by
    simp [Vec3.add_def, Vec3.sub_def, Vec3.smul_def]
  have hb : Vec3.dot (d • dir) dir = d := by
    simp only [Vec3.dot, Vec3.smul_def] at hdir ⊢
    linear_combination d * hdir
  have hdd : Vec3.dot (d • dir) (d • dir) = d * d := by
    simp only [Vec3.dot, Vec3.smul_def] at hdir ⊢
    linear_combination (d * d) * hdir
  simp only [Sphere.intersect, hop, hb, hdd]
  have hdet : d * d - d * d + r * r = r * r := by ring
  rw [hdet, if_neg (not_lt.mpr (mul_self_nonneg r)), hsqrt, if_pos heps]

/-- Witness for C8 at a concrete input: origin ray down `-z`, sphere of
radius 1 at distance 10, square root interpreted as correct on 1. -/
theorem intersect_near_root_on_axis_witness :
    Vec3.dot ⟨0, 0, -1⟩ ⟨0, 0, -1⟩ = 1 ∧
    (fun q : ℚ => if q = 1 then (1 : ℚ) else 0) ((1 : ℚ) * 1) = 1 ∧
    (1 : ℚ) < 10 ∧ intersectEps < 10 - 1 ∧
    Sphere.intersect (fun q : ℚ => if q = 1 then (1 : ℚ) else 0)
      ⟨1, (⟨0, 0, 0⟩ : Vec3) + (10 : ℚ) • (⟨0, 0, -1⟩ : Vec3), ⟨255, 0, 0⟩, 1, 0⟩
      ⟨⟨0, 0, 0⟩, ⟨0, 0, -1⟩⟩ = 10 - 1 :=
  ⟨by norm_num [Vec3.dot], by norm_num, by norm_num,
    by norm_num [intersectEps],
    intersect_near_root_on_axis (fun q : ℚ => if q = 1 then (1 : ℚ) else 0)
      ⟨0, 0, 0⟩ ⟨0, 0, -1⟩ ⟨255, 0, 0⟩ 10 1 1 0
      (by norm_num [Vec3.dot]) (by norm_num) (by norm_num)
      (by norm_num [intersectEps])⟩

/-- The abstract `Renderable` interface of the source: a virtual
`intersect`, plus `position`, `colour`, `diffuse`, `specular` accessors.
The virtual dispatch is modelled by a closure field. -/
structure Renderable where
  intersect : Ray → ℚ
  position : Vec3
  colour : Vec3
  diffuse : ℚ
  specular : ℚ

/-- View of a `Sphere` through the `Renderable` interface (what pushing
`&sphere` into `render_objects` produces). -/
def Sphere.toRenderable (sqrt : ℚ → ℚ) (s : Sphere) : Renderable :=
  ⟨s.intersect sqrt, s.position, s.colour, s.diffuse, s.specular⟩

/-- The `Light` class: a `Sphere` of radius `0.05`, colour `(255,255,0)`,
default diffuse/specular `(1, 0)`, with an added intensity. -/
structure Light where
  intensity : ℚ
  position : Vec3
  deriving DecidableEq, Repr

/-- The `Sphere` base-class part of a `Light`. -/
def Light.toSphere (l : Light) : Sphere :=
  ⟨1 / 20, l.position, ⟨255, 255, 0⟩, 1, 0⟩

/-- View of a `Light` through the `Renderable` interface. -/
def Light.toRenderable (sqrt : ℚ → ℚ) (l : Light) : Renderable :=
  l.toSphere.toRenderable sqrt

/-- Function `findClosestObject`, translated from the source: linear scan, the
running best `closest_dist` starts at `std::numeric_limits<float>::max()`
(modelled as `⊤ : WithTop ℚ`); an object replaces the running best exactly
when `dist > 0 && dist < closest_dist`; `closest` starts at `nullptr`
(modelled as `none`). -/
def findClosestObject :
    List Renderable → Ray → Option Renderable × WithTop ℚ →
      Option Renderable × WithTop ℚ
  | [], _, acc => acc
  | obj :: rest, ray, (closest, closest_dist) =>
    let dist := obj.intersect ray
    if 0 < dist ∧ (dist : WithTop ℚ) < closest_dist then
      findClosestObject rest ray (some obj, (dist : WithTop ℚ))
    else
      findClosestObject rest ray (closest, closest_dist)

theorem findClosestObject_nil (ray : Ray) (acc : Option Renderable × WithTop ℚ) :
    findClosestObject [] ray acc = acc := rfl

theorem findClosestObject_cons (obj : Renderable) (rest : List Renderable)
    (ray : Ray) (closest : Option Renderable) (closest_dist : WithTop ℚ) :
    findClosestObject (obj :: rest) ray (closest, closest_dist) =
      if 0 < obj.intersect ray ∧ (obj.intersect ray : WithTop ℚ) < closest_dist
      then findClosestObject rest ray (some obj, (obj.intersect ray : WithTop ℚ))
      else findClosestObject rest ray (closest, closest_dist) := rfl

/-- The scan either leaves the accumulator untouched or ends on some
scanned object with a positive distance. -/
theorem findClosestObject_cases (objs : List Renderable) (ray : Ray)
    (c : Option Renderable) (cd : WithTop ℚ) :
    findClosestObject objs ray (c, cd) = (c, cd) ∨
      ∃ o ∈ objs, findClosestObject objs ray (c, cd) =
          (some o, (o.intersect ray : WithTop ℚ)) ∧ 0 < o.intersect ray := by
  induction objs generalizing c cd with
  | nil => exact Or.inl rfl
  | cons obj rest ih =>
    rw [findClosestObject_cons]
    by_cases h : 0 < obj.intersect ray ∧ (obj.intersect ray : WithTop ℚ) < cd
    · rw [if_pos h]
      rcases ih (some obj) (obj.intersect ray : WithTop ℚ) with h0 | ⟨o, ho, heq, hpos⟩
      · exact Or.inr ⟨obj, List.mem_cons_self _ _, h0, h.1⟩
      · exact Or.inr ⟨o, List.mem_cons_of_mem _ ho, heq, hpos⟩
    · rw [if_neg h]
      rcases ih c cd with h0 | ⟨o, ho, heq, hpos⟩
      · exact Or.inl h0
      · exact Or.inr ⟨o, List.mem_cons_of_mem _ ho, heq, hpos⟩

/-- The final best distance never exceeds the starting one nor any
positive distance seen during the scan. -/
theorem findClosestObject_min (objs : List Renderable) (ray : Ray)
    (c : Option Renderable) (cd : WithTop ℚ) :
    (findClosestObject objs ray (c, cd)).2 ≤ cd ∧
      ∀ o ∈ objs, 0 < o.intersect ray →
        (findClosestObject objs ray (c, cd)).2 ≤ (o.intersect ray : WithTop ℚ) := by
  induction objs generalizing c cd with
  | nil => exact ⟨le_refl _, by simp⟩
  | cons obj rest ih =>
    rw [findClosestObject_cons]
    by_cases h : 0 < obj.intersect ray ∧ (obj.intersect ray : WithTop ℚ) < cd
    · rw [if_pos h]
      obtain ⟨h1, h2⟩ := ih (some obj) (obj.intersect ray : WithTop ℚ)
      refine ⟨h1.trans h.2.le, ?_⟩
      intro o ho hpos
      rcases List.mem_cons.mp ho with rfl | ho'
      · exact h1
      · exact h2 o ho' hpos
    · rw [if_neg h]
      obtain ⟨h1, h2⟩ := ih c cd
      refine ⟨h1, ?_⟩
      intro o ho hpos
      rcases List.mem_cons.mp ho with rfl | ho'
      · have : ¬ ((o.intersect ray : WithTop ℚ) < cd) := fun hlt => h ⟨hpos, hlt⟩
        exact h1.trans (not_lt.mp this)
      · exact h2 o ho' hpos

/-- Once the running closest pointer is non-null it stays non-null. -/
theorem findClosestObject_some_acc (objs : List Renderable) (ray : Ray)
    (o0 : Renderable) (cd : WithTop ℚ) :
    ∃ o, (findClosestObject objs ray (some o0, cd)).1 = some o := by
  induction objs generalizing o0 cd with
  | nil => exact ⟨o0, rfl⟩
  | cons obj rest ih =>
    rw [findClosestObject_cons]
    by_cases h : 0 < obj.intersect ray ∧ (obj.intersect ray : WithTop ℚ) < cd
    · rw [if_pos h]; exact ih obj _
    · rw [if_neg h]; exact ih o0 cd

/-- C2: the `findClosestObject` scan starting from a null object and
best distance `+∞` (a) returns the null object exactly when no object has
a positive intersection distance, (b) when it returns an object, that
object is a scanned one at a positive distance, the returned distance is
its distance, and no object beats it among positive distances, and
(c) on two objects at equal positive distance the first in scan order
wins. -/
theorem findClosestObject_spec (objs : List Renderable) (ray : Ray) :
    ((findClosestObject objs ray (none, ⊤)).1 = none ↔
      ∀ o ∈ objs, ¬ 0 < o.intersect ray) ∧
    (∀ o, (findClosestObject objs ray (none, ⊤)).1 = some o →
      o ∈ objs ∧ 0 < o.intersect ray ∧
        (findClosestObject objs ray (none, ⊤)).2 = (o.intersect ray : WithTop ℚ) ∧
        ∀ o' ∈ objs, 0 < o'.intersect ray → o.intersect ray ≤ o'.intersect ray) ∧
    (∀ o1 o2 : Renderable, 0 < o1.intersect ray →
      o1.intersect ray = o2.intersect ray →
      findClosestObject [o1, o2] ray (none, ⊤) =
        (some o1, (o1.intersect ray : WithTop ℚ))) := by
  refine ⟨?_, ?_, ?_⟩
  · constructor
    · intro hnone o ho hpos
      induction objs generalizing o with
      | nil => exact absurd ho (List.not_mem_nil o)
      | cons obj rest ih =>
        rw [findClosestObject_cons] at hnone
        by_cases h : 0 < obj.intersect ray ∧ (obj.intersect ray : WithTop ℚ) < ⊤
        · rw [if_pos h] at hnone
          obtain ⟨o', ho'⟩ := findClosestObject_some_acc rest ray obj _
          rw [ho'] at hnone
          exact Option.noConfusion hnone
        · rw [if_neg h] at hnone
          rcases List.mem_cons.mp ho with rfl | ho'
          · exact h ⟨hpos, WithTop.coe_lt_top _⟩
          · exact ih hnone o ho' hpos
    · intro hall
      induction objs with
      | nil => rfl
      | cons obj rest ih =>
        rw [findClosestObject_cons]
        have hnotpos : ¬ 0 < obj.intersect ray :=
          hall obj (List.mem_cons_self _ _)
        rw [if_neg (fun hc => hnotpos hc.1)]
        exact ih fun o ho => hall o (List.mem_cons_of_mem _ ho)
  · intro o hsome
    rcases findClosestObject_cases objs ray none ⊤ with h0 | ⟨o', ho', heq, hpos⟩
    · rw [h0] at hsome
      exact Option.noConfusion hsome
    · rw [heq] at hsome
      obtain rfl : o' = o := Option.some.inj hsome
      obtain ⟨_, hmin⟩ := findClosestObject_min objs ray none ⊤
      refine ⟨ho', hpos, by rw [heq], ?_⟩
      intro o'' ho'' hpos''
      have h2 := hmin o'' ho'' hpos''
      simp only [heq] at h2
      exact_mod_cast h2
  · intro o1 o2 h1 h12
    rw [findClosestObject_cons, if_pos ⟨h1, WithTop.coe_lt_top _⟩,
      findClosestObject_cons]
    rw [if_neg ?_]
    · rfl
    · rintro ⟨-, hlt⟩
      rw [← h12] at hlt
      exact lt_irrefl _ hlt

/-- Concrete camera ray used by witnesses. -/
def wRay : Ray := ⟨⟨0, 0, 0⟩, ⟨0, 0, 1⟩⟩

/-- Concrete renderable at constant distance 5, used by witnesses. -/
def wObj1 : Renderable := ⟨fun _ => 5, ⟨0, 0, 0⟩, ⟨255, 0, 0⟩, 1, 0⟩

/-- Second concrete renderable at the same distance 5, used by witnesses. -/
def wObj2 : Renderable := ⟨fun _ => 5, ⟨1, 0, 0⟩, ⟨0, 255, 0⟩, 1, 0⟩

/-- Witness for C2: two objects tied at positive distance 5; the first in
scan order is returned, at that distance. -/
theorem findClosestObject_spec_witness :
    0 < wObj1.intersect wRay ∧ wObj1.intersect wRay = wObj2.intersect wRay ∧
    findClosestObject [wObj1, wObj2] wRay (none, ⊤) =
      (some wObj1, (wObj1.intersect wRay : WithTop ℚ)) :=
  ⟨by decide, rfl,
    (findClosestObject_spec [wObj1, wObj2] wRay).2.2 wObj1 wObj2 (by decide) rfl⟩

/-- Function `isInShadow`, translated from the source: scan the `spheres` vector
(lights are not in it), return `true` on the first sphere whose
intersection distance with the shadow ray lies strictly between 0 and
`lightdir_length`, short-circuiting the rest of the scan. -/
def isInShadow (sqrt : ℚ → ℚ) : List Sphere → Ray → ℚ → Bool
  | [], _, _ => false
  | sphere :: rest, lightray, lightdir_length =>
    let dist := sphere.intersect sqrt lightray
    if 0 < dist ∧ dist < lightdir_length then true
    else isInShadow sqrt rest lightray lightdir_length

/-- C4: the shadow test is true exactly when some sphere of the spheres
list (lights excluded by construction) intersects the shadow ray at a
distance strictly between 0 and the light's distance, and it
short-circuits: a qualifying sphere at the head decides the scan no
matter what follows.  In particular an object at or beyond the light's
distance never causes a shadow. -/
theorem isInShadow_spec (sqrt : ℚ → ℚ) (spheres : List Sphere)
    (lightray : Ray) (lightdir_length : ℚ) :
    (isInShadow sqrt spheres lightray lightdir_length = true ↔
      ∃ s ∈ spheres, 0 < s.intersect sqrt lightray ∧
        s.intersect sqrt lightray < lightdir_length) ∧
    (∀ (s : Sphere) (rest : List Sphere), 0 < s.intersect sqrt lightray →
      s.intersect sqrt lightray < lightdir_length →
      isInShadow sqrt (s :: rest) lightray lightdir_length = true) := by
  constructor
  · induction spheres with
    | nil => simp [isInShadow]
    | cons sphere rest ih =>
      by_cases h : 0 < sphere.intersect sqrt lightray ∧
          sphere.intersect sqrt lightray < lightdir_length
      · simp only [isInShadow, if_pos h]
        exact ⟨fun _ => ⟨sphere, List.mem_cons_self _ _, h⟩, fun _ => trivial⟩
      · simp only [isInShadow, if_neg h]
        rw [ih]
        constructor
        · rintro ⟨s, hs, hpos, hlt⟩
          exact ⟨s, List.mem_cons_of_mem _ hs, hpos, hlt⟩
        · rintro ⟨s, hs, hpos, hlt⟩
          rcases List.mem_cons.mp hs with rfl | hs'
          · exact absurd ⟨hpos, hlt⟩ h
          · exact ⟨s, hs', hpos, hlt⟩
  · intro s rest hpos hlt
    simp only [isInShadow, if_pos (And.intro hpos hlt)]

/-- Witness for C4: a single sphere straight ahead of the shadow ray at
distance 9 (radius 1, centre at distance 10), light at distance 15:
the scan reports a shadow. -/
theorem isInShadow_spec_witness :
    0 < Sphere.intersect (fun q : ℚ => if q = 1 then (1 : ℚ) else 0)
        ⟨1, ⟨0, 0, -10⟩, ⟨255, 0, 0⟩, 1, 0⟩ ⟨⟨0, 0, 0⟩, ⟨0, 0, -1⟩⟩ ∧
    Sphere.intersect (fun q : ℚ => if q = 1 then (1 : ℚ) else 0)
        ⟨1, ⟨0, 0, -10⟩, ⟨255, 0, 0⟩, 1, 0⟩ ⟨⟨0, 0, 0⟩, ⟨0, 0, -1⟩⟩ < 15 ∧
    isInShadow (fun q : ℚ => if q = 1 then (1 : ℚ) else 0)
        [⟨1, ⟨0, 0, -10⟩, ⟨255, 0, 0⟩, 1, 0⟩] ⟨⟨0, 0, 0⟩, ⟨0, 0, -1⟩⟩ 15 = true := by
  have h9 : Sphere.intersect (fun q : ℚ => if q = 1 then (1 : ℚ) else 0)
      ⟨1, ⟨0, 0, -10⟩, ⟨255, 0, 0⟩, 1, 0⟩ ⟨⟨0, 0, 0⟩, ⟨0, 0, -1⟩⟩ = 9 := by
    norm_num [Sphere.intersect, Vec3.dot, Vec3.sub_def, intersectEps]
  refine ⟨by rw [h9]; norm_num, by rw [h9]; norm_num, ?_⟩
  exact (isInShadow_spec (fun q : ℚ => if q = 1 then (1 : ℚ) else 0)
      [⟨1, ⟨0, 0, -10⟩, ⟨255, 0, 0⟩, 1, 0⟩] ⟨⟨0, 0, 0⟩, ⟨0, 0, -1⟩⟩ 15).2
      ⟨1, ⟨0, 0, -10⟩, ⟨255, 0, 0⟩, 1, 0⟩ []
      (by rw [h9]; norm_num) (by rw [h9]; norm_num)

/-- Function `calcIllumination`, translated from the source: for each light,
`lightdir = contact_point - light.position()`, its normalization and
length, the shadow ray from the light position towards the contact
point; when unoccluded the accumulators become
`diffuse + abs(dot(lightdir_normalized, normalize(contact_point -
closest->position())) * light.intensity())` and
`specular + pow(dot(ray.direction(), reflect(lightdir_normalized,
sphere_normal)), 20)`. -/
def calcIllumination (sqrt : ℚ → ℚ) :
    List Light → List Sphere → Ray → Renderable → Vec3 → Vec3 → ℚ → ℚ → ℚ × ℚ
  | [], _, _, _, _, _, diffuse, specular => (diffuse, specular)
  | light :: rest, spheres, ray, closest, contact_point, sphere_normal,
      diffuse, specular =>
    let lightdir : Vec3 := contact_point - light.position
    let lightdir_normalized := Vec3.normalize sqrt lightdir
    let lightdir_length := Vec3.length sqrt lightdir
    let lightray : Ray := ⟨light.position, lightdir_normalized⟩
    if ¬ isInShadow sqrt spheres lightray lightdir_length then
      calcIllumination sqrt rest spheres ray closest contact_point sphere_normal
        (diffuse + |Vec3.dot lightdir_normalized
            (Vec3.normalize sqrt (contact_point - closest.position)) *
          light.intensity|)
        (specular + (Vec3.dot ray.direction
            (Vec3.reflect lightdir_normalized sphere_normal)) ^ (20 : ℕ))
    else
      calcIllumination sqrt rest spheres ray closest contact_point sphere_normal
        diffuse specular

/-- Written from the words of claim C3: identical to `calcIllumination`
except that the diffuse contribution is
`|dot(normalizedLightDir, normalize(contactPoint - hitObject.position))|
× light.intensity`, the absolute value taken of the dot product only,
with the intensity multiplied afterwards. -/
def calcIlluminationClaimC3 (sqrt : ℚ → ℚ) :
    List Light → List Sphere → Ray → Renderable → Vec3 → Vec3 → ℚ → ℚ → ℚ × ℚ
  | [], _, _, _, _, _, diffuse, specular => (diffuse, specular)
  | light :: rest, spheres, ray, closest, contact_point, sphere_normal,
      diffuse, specular =>
    let lightdir : Vec3 := contact_point - light.position
    let lightdir_normalized := Vec3.normalize sqrt lightdir
    let lightdir_length := Vec3.length sqrt lightdir
    let lightray : Ray := ⟨light.position, lightdir_normalized⟩
    if ¬ isInShadow sqrt spheres lightray lightdir_length then
      calcIlluminationClaimC3 sqrt rest spheres ray closest contact_point
        sphere_normal
        (diffuse + |Vec3.dot lightdir_normalized
            (Vec3.normalize sqrt (contact_point - closest.position))| *
          light.intensity)
        (specular + (Vec3.dot ray.direction
            (Vec3.reflect lightdir_normalized sphere_normal)) ^ (20 : ℕ))
    else
      calcIlluminationClaimC3 sqrt rest spheres ray closest contact_point
        sphere_normal diffuse specular

/-- Concrete renderable for the C3 counterexample. -/
def cObj : Renderable := ⟨fun _ => 0, ⟨0, 0, 0⟩, ⟨0, 0, 0⟩, 1, 0⟩

/-- Counterexample to C3 as stated: one unoccluded light of intensity
`-1` straight along the x axis.  The code accumulates
`|dot * intensity| = 1`, while the claim's formula
`|dot| * intensity` gives `-1`. -/
theorem calcIllumination_claim_counterexample :
    calcIllumination (fun _ => 1) [⟨-1, ⟨0, 0, 0⟩⟩] [] ⟨⟨0, 0, 0⟩, ⟨0, 0, 1⟩⟩
        cObj ⟨1, 0, 0⟩ ⟨1, 0, 0⟩ 0 0 ≠
      calcIlluminationClaimC3 (fun _ => 1) [⟨-1, ⟨0, 0, 0⟩⟩] []
        ⟨⟨0, 0, 0⟩, ⟨0, 0, 1⟩⟩ cObj ⟨1, 0, 0⟩ ⟨1, 0, 0⟩ 0 0 := by
  norm_num [calcIllumination, calcIlluminationClaimC3, isInShadow, cObj,
    Vec3.normalize, Vec3.length, Vec3.dot, Vec3.reflect, Vec3.sub_def,
    Vec3.smul_def, Prod.ext_iff]

/-- C3 (amended): the shading pass adds, for each unoccluded light,
`|dot(normalizedLightDir, normalize(contactPoint - hitObject.position))
× light.intensity|` (absolute value of the whole product) to the diffuse
accumulator and `pow(dot(rayDirection, reflect(normalizedLightDir,
normal)), 20)` to the specular accumulator; occluded lights contribute
nothing, and the contributions of all unoccluded lights are summed with
no normalization by light count. -/
theorem calcIllumination_amended (sqrt : ℚ → ℚ) (lights : List Light)
    (spheres : List Sphere) (ray : Ray) (closest : Renderable)
    (contact_point sphere_normal : Vec3) (d0 s0 : ℚ) :
    calcIllumination sqrt lights spheres ray closest contact_point
        sphere_normal d0 s0 =
      (d0 + (lights.map fun light =>
          if isInShadow sqrt spheres
              ⟨light.position, Vec3.normalize sqrt (contact_point - light.position)⟩
              (Vec3.length sqrt (contact_point - light.position))
          then 0
          else |Vec3.dot (Vec3.normalize sqrt (contact_point - light.position))
              (Vec3.normalize sqrt (contact_point - closest.position)) *
            light.intensity|).sum,
       s0 + (lights.map fun light =>
          if isInShadow sqrt spheres
              ⟨light.position, Vec3.normalize sqrt (contact_point - light.position)⟩
              (Vec3.length sqrt (contact_point - light.position))
          then 0
          else (Vec3.dot ray.direction
              (Vec3.reflect (Vec3.normalize sqrt (contact_point - light.position))
                sphere_normal)) ^ (20 : ℕ)).sum) := by
  induction lights generalizing d0 s0 with
  | nil => simp [calcIllumination]
  | cons light rest ih =>
    by_cases h : isInShadow sqrt spheres
        ⟨light.position, Vec3.normalize sqrt (contact_point - light.position)⟩
        (Vec3.length sqrt (contact_point - light.position)) = true
    · simp only [calcIllumination, List.map_cons, List.sum_cons]
      rw [if_neg (not_not_intro h), ih, if_pos h, if_pos h]
      simp only [Prod.mk.injEq]
      constructor <;> ring
    · simp only [calcIllumination, List.map_cons, List.sum_cons]
      rw [if_pos h, ih, if_neg h, if_neg h]
      simp only [Prod.mk.injEq]
      constructor <;> ring

/-- Function `calcFinalColour`, translated from the source: clamp the accumulated
`specular` and `diffuse` to `[0,1]`, compose
`colour * material_diffuse * diffuse * 1.0 +
specular * material_specular * (255,255,255) * 0.6`, and clamp the
result per channel to `[0,255]`. -/
def calcFinalColour (closest : Renderable) (specular diffuse : ℚ) : Vec3 :=
  let diffuse_scale : ℚ := 1
  let specular_scale : ℚ := 6 / 10
  let specular' := Vec3.qclamp specular 0 1
  let diffuse' := Vec3.qclamp diffuse 0 1
  let final_colour :=
    (closest.diffuse * diffuse' * diffuse_scale) • closest.colour +
      (specular' * closest.specular * specular_scale) • (⟨255, 255, 255⟩ : Vec3)
  Vec3.clamp final_colour ⟨0, 0, 0⟩ ⟨255, 255, 255⟩

theorem qclamp_mem (v lo hi : ℚ) (h : lo ≤ hi) :
    lo ≤ Vec3.qclamp v lo hi ∧ Vec3.qclamp v lo hi ≤ hi :=
  ⟨le_min (le_max_right v lo) h, min_le_right _ _⟩

/-- C5: for every hit object and any accumulated diffuse/specular values,
the final colour is the clamp to `[0,255]` of
`colour × material_diffuse × clamp(diffuse,0,1) × 1 +
clamp(specular,0,1) × material_specular × (255,255,255) × 0.6`, and every
channel of the result lies in `[0,255]`. -/
theorem calcFinalColour_spec (closest : Renderable) (specular diffuse : ℚ) :
    calcFinalColour closest specular diffuse =
      Vec3.clamp
        ((closest.diffuse * Vec3.qclamp diffuse 0 1 * 1) • closest.colour +
          (Vec3.qclamp specular 0 1 * closest.specular * (6 / 10)) •
            (⟨255, 255, 255⟩ : Vec3))
        ⟨0, 0, 0⟩ ⟨255, 255, 255⟩ ∧
    (0 ≤ (calcFinalColour closest specular diffuse).x ∧
      (calcFinalColour closest specular diffuse).x ≤ 255) ∧
    (0 ≤ (calcFinalColour closest specular diffuse).y ∧
      (calcFinalColour closest specular diffuse).y ≤ 255) ∧
    (0 ≤ (calcFinalColour closest specular diffuse).z ∧
      (calcFinalColour closest specular diffuse).z ≤ 255) := by
  have h255 : (0 : ℚ) ≤ 255 := by norm_num
  refine ⟨rfl, ?_, ?_, ?_⟩ <;>
    exact qclamp_mem _ 0 255 h255

/-- Function `createCameraRay`, translated from the source:
`xx = (2 * ((x + 0.5) * invWidth) - 1) * angle * aspectratio`,
`yy = (1 - 2 * ((y + 0.5) * invHeight)) * angle`, ray from the origin in
direction `normalize (xx, yy, -1)`.  `angle` is the precomputed
`tan(PI * 0.5 * fov / 180)` scalar that `main` passes in. -/
def createCameraRay (sqrt : ℚ → ℚ) (x y : ℤ)
    (invWidth invHeight aspectratio angle : ℚ) : Ray :=
  let xx : ℚ := (2 * (((x : ℚ) + 1 / 2) * invWidth) - 1) * angle * aspectratio
  let yy : ℚ := (1 - 2 * (((y : ℚ) + 1 / 2) * invHeight)) * angle
  let raydir : Vec3 := ⟨xx, yy, -1⟩
  ⟨⟨0, 0, 0⟩, Vec3.normalize sqrt raydir⟩

/-- C6: with the arguments `main` passes (`invWidth = 1/width`,
`invHeight = 1/height`, `aspectratio = width/height`, `angle`), the
camera ray for pixel `(x, y)` has origin `(0,0,0)` and direction
`normalize(xx, yy, -1)` with `xx = (2·((x+0.5)/width) − 1) · angle ·
(width/height)` and `yy = (1 − 2·((y+0.5)/height)) · angle`; and the
`angle` value `tan(π·0.5·fov/180)` computed by `main` equals the spec's
`tan(π·fov/360)`. -/
theorem createCameraRay_spec (sqrt : ℚ → ℚ) (x y : ℤ) (w h angle : ℚ) :
    createCameraRay sqrt x y (1 / w) (1 / h) (w / h) angle =
      ⟨⟨0, 0, 0⟩, Vec3.normalize sqrt
        ⟨(2 * (((x : ℚ) + 1 / 2) / w) - 1) * angle * (w / h),
         (1 - 2 * (((y : ℚ) + 1 / 2) / h)) * angle, -1⟩⟩ ∧
    ∀ fov : ℝ, Real.tan (Real.pi * (1 / 2) * fov / 180) =
      Real.tan (Real.pi * fov / 360) := by
  constructor
  · unfold createCameraRay
    have hx : (2 * (((x : ℚ) + 1 / 2) * (1 / w)) - 1) * angle * (w / h) =
        (2 * (((x : ℚ) + 1 / 2) / w) - 1) * angle * (w / h) := by ring
    have hy : (1 - 2 * (((y : ℚ) + 1 / 2) * (1 / h))) * angle =
        (1 - 2 * (((y : ℚ) + 1 / 2) / h)) * angle := by ring
    rw [hx, hy]
  · intro fov
    congr 1
    ring

/-- The `SCREEN_WIDTH` constant of the source. -/
def SCREEN_WIDTH : Nat := 1280

/-- The `SCREEN_HEIGHT` constant of the source. -/
def SCREEN_HEIGHT : Nat := 720

/-- The `NUM_THREADS` constant of the source (worker count, 8). -/
def NUM_THREADS : Nat := 8

/-- Value `rows_per_thread = SCREEN_HEIGHT / NUM_THREADS` (integer division),
as computed in `raytrace`. -/
def rows_per_thread : Nat := SCREEN_HEIGHT / NUM_THREADS

/-- First row of worker `i`'s band: `rows_per_thread * i`. -/
def bandStart (i : Nat) : Nat := rows_per_thread * i

/-- One-past-last row of worker `i`'s band:
`min(rows_per_thread * (i+1), SCREEN_HEIGHT)`. -/
def bandEnd (i : Nat) : Nat := min (rows_per_thread * (i + 1)) SCREEN_HEIGHT

/-- Row `r` belongs to worker `i`'s band. -/
def inBand (i r : Nat) : Prop := bandStart i ≤ r ∧ r < bandEnd i

instance (i r : Nat) : Decidable (inBand i r) := by
  unfold inBand; infer_instance

set_option maxRecDepth 4000 in
theorem bands_cover_unique_aux :
    ∀ r, r < SCREEN_HEIGHT → ∃ i : Fin NUM_THREADS,
      inBand i r ∧ ∀ j : Fin NUM_THREADS, inBand j r → j = i := by
  decide

theorem bands_cover_unique :
    ∀ r, r < SCREEN_HEIGHT → ∃! i : Fin NUM_THREADS, inBand i r :=
  fun r hr => bands_cover_unique_aux r hr

/-- C7: the eight bands `[rows_per_thread*i, min(rows_per_thread*(i+1),
height))` tile `[0, height)`: every row below `SCREEN_HEIGHT` lies in
exactly one band, no row lies in two bands, every non-final band has
`⌈height/N⌉` rows, the final band no more than that, and consecutive
bands are contiguous. -/
theorem raytrace_bands_partition :
    (∀ r, r < SCREEN_HEIGHT → ∃! i : Fin NUM_THREADS, inBand i r) ∧
    (∀ i j : Fin NUM_THREADS, ∀ r, inBand i r → inBand j r → i = j) ∧
    (∀ i : Fin NUM_THREADS, (i : Nat) + 1 < NUM_THREADS →
      bandEnd i - bandStart i =
        (SCREEN_HEIGHT + NUM_THREADS - 1) / NUM_THREADS) ∧
    (bandEnd (NUM_THREADS - 1) - bandStart (NUM_THREADS - 1) ≤
      (SCREEN_HEIGHT + NUM_THREADS - 1) / NUM_THREADS) ∧
    (∀ i : Fin NUM_THREADS, (i : Nat) + 1 < NUM_THREADS →
      bandEnd i = bandStart ((i : Nat) + 1)) := by
  refine ⟨bands_cover_unique, ?_, by decide, by decide, by decide⟩
  intro i j r hi hj
  have hr : r < SCREEN_HEIGHT := lt_of_lt_of_le hj.2 (min_le_right _ _)
  obtain ⟨k, -, huniq⟩ := bands_cover_unique r hr
  exact (huniq i hi).trans (huniq j hj).symm

/-- Witness for C7: row 137 lies in exactly one band. -/
theorem raytrace_bands_partition_witness :
    137 < SCREEN_HEIGHT ∧ ∃! i : Fin NUM_THREADS, inBand i 137 :=
  ⟨by decide, raytrace_bands_partition.1 137 (by decide)⟩

/-- The frame buffer, indexed by row then column, one colour per pixel
(what the `setPixel` writes into `surface->pixels` amount to, with the
packed colour kept symbolic). -/
def Buffer : Type := Nat → Nat → Vec3

/-- One `setPixel` call: overwrite pixel `(x, y)` of the buffer. -/
def writePix (b : Buffer) (y x : Nat) (v : Vec3) : Buffer :=
  fun y' x' => if y' = y ∧ x' = x then v else b y' x'

/-- The per-pixel body of the `process` lambda in `raytrace`:
`findClosestObject` from null/`FLT_MAX`; on a hit, contact point
`origin + dist·direction`, sphere normal, bias `1e-4` along the normal,
`calcIllumination` from zero accumulators, `calcFinalColour`; on a miss
(`closest == nullptr`) no value is produced. -/
def shadePixel (sqrt : ℚ → ℚ) (lights : List Light) (spheres : List Sphere)
    (render_objects : List Renderable) (ray : Ray) : Option Vec3 :=
  match findClosestObject render_objects ray (none, ⊤) with
  | (none, _) => none
  | (some closest, closest_dist) =>
    let bias : ℚ := 1 / 10000
    let cd : ℚ := closest_dist.untop' 0
    let contact_point : Vec3 := ray.origin + cd • ray.direction
    let sphere_normal := Vec3.normalize sqrt (contact_point - closest.position)
    let contact_point' := contact_point + bias • sphere_normal
    let ds := calcIllumination sqrt lights spheres ray closest contact_point'
      sphere_normal 0 0
    some (calcFinalColour closest ds.2 ds.1)

/-- The inner `x` loop of the `process` lambda over an arbitrary column
list, writing each produced colour into the buffer. -/
def processCols (f : Nat → Option Vec3) (y : Nat) (xs : List Nat)
    (b : Buffer) : Buffer :=
  xs.foldl (fun acc x =>
    match f x with
    | some v => writePix acc y x v
    | none => acc) b

/-- One row of the `process` lambda: columns `0, …, width-1`. -/
def processRow (sqrt : ℚ → ℚ) (lights : List Light) (spheres : List Sphere)
    (render_objects : List Renderable) (rays : Nat → Nat → Ray)
    (width : Nat) (y : Nat) (b : Buffer) : Buffer :=
  processCols (fun x => shadePixel sqrt lights spheres render_objects (rays y x))
    y (List.range width) b

/-- A sequence of rows of the `process` lambda. -/
def runRows (sqrt : ℚ → ℚ) (lights : List Light) (spheres : List Sphere)
    (render_objects : List Renderable) (rays : Nat → Nat → Ray)
    (width : Nat) (rows : List Nat) (b : Buffer) : Buffer :=
  rows.foldl (fun acc y =>
    processRow sqrt lights spheres render_objects rays width y acc) b

/-- The rows of all `NUM_THREADS` bands, in band order: the row set the
`raytrace` workers jointly process. -/
def raytraceRows : List Nat :=
  ((List.range NUM_THREADS).map
    (fun i => List.range' (bandStart i) (bandEnd i - bandStart i))).flatten

/-- The full `raytrace` pass over the screen. -/
def raytrace (sqrt : ℚ → ℚ) (lights : List Light) (spheres : List Sphere)
    (render_objects : List Renderable) (rays : Nat → Nat → Ray)
    (b : Buffer) : Buffer :=
  runRows sqrt lights spheres render_objects rays SCREEN_WIDTH raytraceRows b

theorem processCols_apply (f : Nat → Option Vec3) (y : Nat) (xs : List Nat)
    (b : Buffer) (y' x' : Nat) :
    processCols f y xs b y' x' =
      if y' = y ∧ x' ∈ xs then (f x').getD (b y' x') else b y' x' := by
  induction xs generalizing b with
  | nil => simp [processCols]
  | cons x xs ih =>
    have hstep : processCols f y (x :: xs) b =
        processCols f y xs
          (match f x with
            | some v => writePix b y x v
            | none => b) := rfl
    rw [hstep]
    cases hfx : f x with
    | none =>
      rw [ih]
      by_cases hx : x' = x
      · subst hx
        simp [List.mem_cons, hfx]
      · simp [List.mem_cons, hx]
    | some w =>
      rw [ih]
      by_cases hy : y' = y
      · subst hy
        by_cases hx : x' = x
        · subst hx
          by_cases hmem : x' ∈ xs
          · simp [List.mem_cons, hmem, hfx, writePix]
          · simp [List.mem_cons, hmem, hfx, writePix]
        · by_cases hmem : x' ∈ xs
          · simp [List.mem_cons, hmem, hx, writePix]
          · simp [List.mem_cons, hmem, hx, writePix]
      · simp [hy, writePix]

theorem processRow_apply (sqrt : ℚ → ℚ) (lights : List Light)
    (spheres : List Sphere) (render_objects : List Renderable)
    (rays : Nat → Nat → Ray) (width : Nat) (y : Nat) (b : Buffer)
    (y' x' : Nat) :
    processRow sqrt lights spheres render_objects rays width y b y' x' =
      if y' = y ∧ x' < width
      then (shadePixel sqrt lights spheres render_objects (rays y x')).getD
        (b y' x')
      else b y' x' := by
  rw [processRow, processCols_apply]
  simp [List.mem_range]

theorem processRow_comm (sqrt : ℚ → ℚ) (lights : List Light)
    (spheres : List Sphere) (render_objects : List Renderable)
    (rays : Nat → Nat → Ray) (width : Nat) (y1 y2 : Nat) (b : Buffer) :
    processRow sqrt lights spheres render_objects rays width y1
        (processRow sqrt lights spheres render_objects rays width y2 b) =
      processRow sqrt lights spheres render_objects rays width y2
        (processRow sqrt lights spheres render_objects rays width y1 b) := by
  funext y' x'
  rw [processRow_apply, processRow_apply, processRow_apply, processRow_apply]
  by_cases h1 : y' = y1
  · by_cases h2 : y' = y2
    · rw [← h1, ← h2]
    · have h12 : y1 ≠ y2 := fun h => h2 (h1.trans h)
      subst h1
      simp [h12]
  · by_cases h2 : y' = y2
    · have h21 : y2 ≠ y1 := fun h => h1 (h2.trans h)
      subst h2
      simp [h21]
    · simp [h1, h2]

theorem runRows_cons (sqrt : ℚ → ℚ) (lights : List Light)
    (spheres : List Sphere) (render_objects : List Renderable)
    (rays : Nat → Nat → Ray) (width : Nat) (y : Nat) (rows : List Nat)
    (b : Buffer) :
    runRows sqrt lights spheres render_objects rays width (y :: rows) b =
      runRows sqrt lights spheres render_objects rays width rows
        (processRow sqrt lights spheres render_objects rays width y b) := rfl

theorem runRows_apply (sqrt : ℚ → ℚ) (lights : List Light)
    (spheres : List Sphere) (render_objects : List Renderable)
    (rays : Nat → Nat → Ray) (width : Nat) (rows : List Nat) (b : Buffer)
    (y' x' : Nat) :
    runRows sqrt lights spheres render_objects rays width rows b y' x' =
      if y' ∈ rows ∧ x' < width
      then (shadePixel sqrt lights spheres render_objects (rays y' x')).getD
        (b y' x')
      else b y' x' := by
  induction rows generalizing b with
  | nil => simp [runRows]
  | cons y rows ih =>
    rw [runRows_cons, ih, processRow_apply]
    by_cases hy : y' = y
    · subst hy
      by_cases hw : x' < width
      · by_cases hmem : y' ∈ rows
        · simp only [hmem, hw, and_true, true_and, if_pos rfl, List.mem_cons,
            true_or, if_true, Or.inl rfl,
            if_pos (And.intro (Or.inl rfl) hw)]
          cases hs : shadePixel sqrt lights spheres render_objects (rays y' x') with
          | none => simp
          | some v => simp
        · simp [List.mem_cons, hmem, hw]
      · simp [hw]
    · simp [List.mem_cons, hy]

/-- C9: the render pass is a deterministic, idempotent function of the
scene and precomputed rays: running the full pass twice leaves the
buffer exactly as after one pass, and running the same multiset of rows
in any order (any assignment of rows to workers) produces the same
buffer. -/
theorem raytrace_deterministic (sqrt : ℚ → ℚ) (lights : List Light)
    (spheres : List Sphere) (render_objects : List Renderable)
    (rays : Nat → Nat → Ray) :
    (∀ b : Buffer,
      raytrace sqrt lights spheres render_objects rays
          (raytrace sqrt lights spheres render_objects rays b) =
        raytrace sqrt lights spheres render_objects rays b) ∧
    (∀ (width : Nat) (rows1 rows2 : List Nat), rows1.Perm rows2 →
      ∀ b : Buffer,
        runRows sqrt lights spheres render_objects rays width rows1 b =
          runRows sqrt lights spheres render_objects rays width rows2 b) := by
  constructor
  · intro b
    funext y' x'
    unfold raytrace
    rw [runRows_apply, runRows_apply]
    by_cases hc : y' ∈ raytraceRows ∧ x' < SCREEN_WIDTH
    · simp only [if_pos hc]
      cases shadePixel sqrt lights spheres render_objects (rays y' x') with
      | none => rfl
      | some v => rfl
    · simp only [if_neg hc]
  · intro width rows1 rows2 hperm
    induction hperm with
    | nil => intro b; rfl
    | cons z t ih =>
      intro b
      rw [runRows_cons, runRows_cons, ih]
    | swap z1 z2 t =>
      intro b
      rw [runRows_cons, runRows_cons, runRows_cons, runRows_cons,
        processRow_comm]
    | trans h1 h2 ih1 ih2 =>
      intro b
      rw [ih1, ih2]

/-- Constant ray field used by witnesses. -/
def wRays : Nat → Nat → Ray := fun _ _ => wRay

/-- Constant starting buffer used by witnesses. -/
def wBuf : Buffer := fun _ _ => ⟨0, 0, 0⟩

/-- Witness for C9: the row lists `[0, 1]` and `[1, 0]` are permutations
of one another and running them over an empty scene produces the same
buffer. -/
theorem raytrace_deterministic_witness :
    ([0, 1] : List Nat).Perm [1, 0] ∧
    runRows (fun q => q) [] [] [] wRays 1 [0, 1] wBuf =
      runRows (fun q => q) [] [] [] wRays 1 [1, 0] wBuf :=
  ⟨List.Perm.swap 1 0 [],
    (raytrace_deterministic (fun q => q) [] [] [] wRays).2 1 [0, 1] [1, 0]
      (List.Perm.swap 1 0 []) wBuf⟩

/-- C10: a pixel whose primary ray finds no positive-distance hit
(`findClosestObject` returns the null object) is never written: after a
full render pass the buffer cell still holds its previous value. -/
theorem raytrace_no_write_on_miss (sqrt : ℚ → ℚ) (lights : List Light)
    (spheres : List Sphere) (render_objects : List Renderable)
    (rays : Nat → Nat → Ray) (b : Buffer) (y x : Nat)
    (hmiss : (findClosestObject render_objects (rays y x) (none, ⊤)).1 = none) :
    raytrace sqrt lights spheres render_objects rays b y x = b y x := by
  have hshade : shadePixel sqrt lights spheres render_objects (rays y x) = none := by
    unfold shadePixel
    rcases hfe : findClosestObject render_objects (rays y x) (none, ⊤) with ⟨c, cd⟩
    rw [hfe] at hmiss
    cases c with
    | none => rfl
    | some o => exact Option.noConfusion hmiss
  unfold raytrace
  rw [runRows_apply, hshade]
  by_cases hc : y ∈ raytraceRows ∧ x < SCREEN_WIDTH
  · rw [if_pos hc]; rfl
  · rw [if_neg hc]

/-- Witness for C10: with no renderables every scan misses, and the full
pass leaves pixel `(5, 3)` of a constant buffer untouched. -/
theorem raytrace_no_write_on_miss_witness :
    (findClosestObject [] (wRays 3 5) (none, ⊤)).1 = none ∧
    raytrace (fun q => q) [] [] [] wRays wBuf 3 5 = wBuf 3 5 :=
  ⟨rfl, raytrace_no_write_on_miss (fun q => q) [] [] [] wRays wBuf 3 5 rfl⟩
